import Mathlib

/-!
Verification of the two rate limiters of this repository:
`FixedWindowRateLimiter` and `TokenBucketRateLimiter`.

The TypeScript classes are embedded shallowly as Lean structures with
explicit state passing.  The wall clock (`Date.now()`) becomes an explicit
`now : ℤ` argument (milliseconds).  The `Map<string, number[]>` of the
fixed-window limiter becomes a total function `String → List ℤ` that
defaults to `[]`, matching `map.get(k) || []` and `map.set`.  The token
counts of the token bucket, floating-point numbers in the source, are
modelled as rationals `ℚ`.
-/

/-- Options record of the fixed-window limiter:
`interface RateLimiterOptions { maxRequests; timeWindowMs }`. -/
structure RateLimiterOptions where
  maxRequests : ℕ
  timeWindowMs : ℤ
deriving Repr

/-- State of `class FixedWindowRateLimiter`: the two configuration fields and
the per-identifier timestamp map (`Map.get(k) || []` is modelled by a total
function defaulting to `[]`). -/
structure FixedWindowRateLimiter where
  maxRequests : ℕ
  timeWindowMs : ℤ
  requestTimestamps : String → List ℤ

/-- The constructor of `FixedWindowRateLimiter`: copies the options and
starts with an empty map. -/
def FixedWindowRateLimiter.construct (options : RateLimiterOptions) :
    FixedWindowRateLimiter :=
  { maxRequests := options.maxRequests
    timeWindowMs := options.timeWindowMs
    requestTimestamps := fun _ => [] }

/-- The predicate of the `timestamps.filter` call in
`FixedWindowRateLimiter.isAllowed`: keep `ts` iff `now - ts < timeWindowMs`. -/
def FixedWindowRateLimiter.inWindow (s : FixedWindowRateLimiter)
    (now ts : ℤ) : Bool :=
  decide (now - ts < s.timeWindowMs)

/-- `FixedWindowRateLimiter.isAllowed(identifier)` with the clock explicit.
Returns the boolean result together with the state after the call. -/
def FixedWindowRateLimiter.isAllowed (s : FixedWindowRateLimiter)
    (identifier : String) (now : ℤ) : Bool × FixedWindowRateLimiter :=
  let timestamps := s.requestTimestamps identifier
  let recentTimestamps := timestamps.filter (s.inWindow now)
  if recentTimestamps.length ≥ s.maxRequests then
    (false, s)
  else
    (true,
      { s with
        requestTimestamps := fun id =>
          if id = identifier then recentTimestamps ++ [now]
          else s.requestTimestamps id })

/-- Runs a sequence of `isAllowed` calls, each given as an
(identifier, clock value) pair, threading the state and collecting the
boolean results. -/
def runFixedWindow (s : FixedWindowRateLimiter) :
    List (String × ℤ) → List Bool × FixedWindowRateLimiter
  | [] => ([], s)
  | (identifier, now) :: rest =>
    let r := s.isAllowed identifier now
    let rs := runFixedWindow r.2 rest
    (r.1 :: rs.1, rs.2)

/-- The example instance of the source file:
`new FixedWindowRateLimiter({ maxRequests: 5, timeWindowMs: 60000 })`. -/
def limiter : FixedWindowRateLimiter :=
  FixedWindowRateLimiter.construct { maxRequests := 5, timeWindowMs := 60000 }

/-- State of `class TokenBucketRateLimiter`; `tokens` and the configuration
are rationals, `lastCheckedAt` is a millisecond timestamp. -/
structure TokenBucketRateLimiter where
  capacity : ℚ
  rate : ℚ
  lastCheckedAt : ℤ
  tokens : ℚ
deriving Repr

/-- The constructor of `TokenBucketRateLimiter`: starts with a full bucket
and `lastCheckedAt = Date.now()` (the explicit `now`). -/
def TokenBucketRateLimiter.construct (capacity rate : ℚ) (now : ℤ) :
    TokenBucketRateLimiter :=
  { capacity := capacity, rate := rate, lastCheckedAt := now,
    tokens := capacity }

/-- The refill of `TokenBucketRateLimiter.isAllowed`:
`min(capacity, tokens + timePassed * rate)` where
`timePassed = (now - lastCheckedAt) / 1000` seconds. -/
def TokenBucketRateLimiter.refilled (s : TokenBucketRateLimiter)
    (now : ℤ) : ℚ :=
  min s.capacity (s.tokens + ((now : ℚ) - (s.lastCheckedAt : ℚ)) / 1000 * s.rate)

/-- `TokenBucketRateLimiter.isAllowed(tokensRequested)` with the clock
explicit.  Updates `lastCheckedAt` unconditionally, refills with clamping,
and consumes the tokens iff enough are available. -/
def TokenBucketRateLimiter.isAllowed (s : TokenBucketRateLimiter)
    (tokensRequested : ℚ) (now : ℤ) : Bool × TokenBucketRateLimiter :=
  let tokens := s.refilled now
  if tokens ≥ tokensRequested then
    (true, { s with lastCheckedAt := now, tokens := tokens - tokensRequested })
  else
    (false, { s with lastCheckedAt := now, tokens := tokens })

/-- Runs a sequence of `isAllowed` calls on the token bucket, each given as a
(tokensRequested, clock value) pair. -/
def runTokenBucket (s : TokenBucketRateLimiter) :
    List (ℚ × ℤ) → List Bool × TokenBucketRateLimiter
  | [] => ([], s)
  | (req, now) :: rest =>
    let r := s.isAllowed req now
    let rs := runTokenBucket r.2 rest
    (r.1 :: rs.1, rs.2)

/-- The example instance of the source file:
`new TokenBucketRateLimiter(10, 1)` (constructed at clock 0). -/
def bucketRateLimiter : TokenBucketRateLimiter :=
  TokenBucketRateLimiter.construct 10 1 0

/-- C5: a fixed-window `isAllowed` call that returns `false` appends no
timestamp to the identifier's recorded history. -/
theorem fixedWindow_reject_appends_nothing (s : FixedWindowRateLimiter)
    (identifier : String) (now : ℤ)
    (h : (s.isAllowed identifier now).1 = false) :
    (s.isAllowed identifier now).2.requestTimestamps identifier =
      s.requestTimestamps identifier := by
  unfold FixedWindowRateLimiter.isAllowed at h ⊢
  by_cases hc :
      ((s.requestTimestamps identifier).filter (s.inWindow now)).length ≥
        s.maxRequests
  · simp [hc]
  · simp [hc] at h

/-- Witness for C5: a concrete rejected call (limit 1, one fresh timestamp
stored) leaves the history `[0]` unchanged. -/
theorem fixedWindow_reject_appends_nothing_witness :
    (({ maxRequests := 1, timeWindowMs := 1000,
        requestTimestamps := fun _ => [0] } :
          FixedWindowRateLimiter).isAllowed "user123" 5).2.requestTimestamps
        "user123" =
      ({ maxRequests := 1, timeWindowMs := 1000,
         requestTimestamps := fun _ => [0] } :
           FixedWindowRateLimiter).requestTimestamps "user123" :=
  fixedWindow_reject_appends_nothing _ "user123" 5 (by decide)

/-- C9: a fixed-window `isAllowed` call that returns `false` leaves the
stored state entirely unchanged; in particular the pruned timestamp list is
not written back, so stale entries persist exactly as before the call. -/
theorem fixedWindow_reject_state_unchanged (s : FixedWindowRateLimiter)
    (identifier : String) (now : ℤ)
    (h : (s.isAllowed identifier now).1 = false) :
    (s.isAllowed identifier now).2 = s := by
  unfold FixedWindowRateLimiter.isAllowed at h ⊢
  by_cases hc :
      ((s.requestTimestamps identifier).filter (s.inWindow now)).length ≥
        s.maxRequests
  · simp [hc]
  · simp [hc] at h

/-- Witness for C9: a concrete rejected call (limit 1, one timestamp `0`
stored that is still inside the window at clock `5`) returns the state it
was given. -/
theorem fixedWindow_reject_state_unchanged_witness :
    (({ maxRequests := 1, timeWindowMs := 1000,
        requestTimestamps := fun _ => [0] } :
          FixedWindowRateLimiter).isAllowed "user123" 5).2 =
      { maxRequests := 1, timeWindowMs := 1000,
        requestTimestamps := fun _ => [0] } :=
  fixedWindow_reject_state_unchanged _ "user123" 5 (by decide)

/-- C7: a fixed-window `isAllowed` call for identifier `A` leaves the
recorded history of every other identifier `B` unchanged. -/
theorem fixedWindow_identifier_independence (s : FixedWindowRateLimiter)
    (idA idB : String) (now : ℤ) (h : idB ≠ idA) :
    (s.isAllowed idA now).2.requestTimestamps idB =
      s.requestTimestamps idB := by
  unfold FixedWindowRateLimiter.isAllowed
  by_cases hc :
      ((s.requestTimestamps idA).filter (s.inWindow now)).length ≥
        s.maxRequests
  · simp [hc]
  · simp [hc, h]

/-- Witness for C7: a call for `"user123"` on the example limiter leaves the
(empty) history of `"other"` unchanged. -/
theorem fixedWindow_identifier_independence_witness :
    (limiter.isAllowed "user123" 0).2.requestTimestamps "other" =
      limiter.requestTimestamps "other" :=
  fixedWindow_identifier_independence limiter "user123" "other" 0 (by decide)

/-- C4: when the post-refill token count exactly equals `tokensRequested`,
the token bucket allows the request and drains to exactly 0. -/
theorem tokenBucket_boundary_inclusive (s : TokenBucketRateLimiter)
    (req : ℚ) (now : ℤ) (h : s.refilled now = req) :
    (s.isAllowed req now).1 = true ∧ (s.isAllowed req now).2.tokens = 0 := by
  unfold TokenBucketRateLimiter.isAllowed
  rw [h]
  simp

/-- Witness for C4: a bucket holding 3 tokens (no elapsed time) asked for
exactly 3 tokens answers `true` and is left with 0 tokens. -/
theorem tokenBucket_boundary_inclusive_witness :
    (({ capacity := 10, rate := 1, lastCheckedAt := 0, tokens := 3 } :
        TokenBucketRateLimiter).isAllowed 3 0).1 = true ∧
      (({ capacity := 10, rate := 1, lastCheckedAt := 0, tokens := 3 } :
          TokenBucketRateLimiter).isAllowed 3 0).2.tokens = 0 :=
  tokenBucket_boundary_inclusive _ 3 0
    (by norm_num [TokenBucketRateLimiter.refilled])

/-- C6: every token-bucket `isAllowed` call, a denied one included, sets
`lastCheckedAt` to the current time, and a denied call leaves `tokens` at
exactly the post-refill clamped value `min(capacity, tokens + elapsed·rate)`. -/
theorem tokenBucket_clock_always_updated (s : TokenBucketRateLimiter)
    (req : ℚ) (now : ℤ) :
    (s.isAllowed req now).2.lastCheckedAt = now ∧
      ((s.isAllowed req now).1 = false →
        (s.isAllowed req now).2.tokens = s.refilled now) := by
  unfold TokenBucketRateLimiter.isAllowed
  by_cases hge : s.refilled now ≥ req
  · simp [hge]
  · simp [hge]

/-- Witness for C6: an empty bucket denied 5 tokens at clock 7 still gets
`lastCheckedAt = 7`, and its token count is the clamped refill value. -/
theorem tokenBucket_clock_always_updated_witness :
    (({ capacity := 10, rate := 1, lastCheckedAt := 0, tokens := 0 } :
        TokenBucketRateLimiter).isAllowed 5 7).2.lastCheckedAt = 7 ∧
      (({ capacity := 10, rate := 1, lastCheckedAt := 0, tokens := 0 } :
          TokenBucketRateLimiter).isAllowed 5 7).2.tokens =
        ({ capacity := 10, rate := 1, lastCheckedAt := 0, tokens := 0 } :
            TokenBucketRateLimiter).refilled 7 :=
  ⟨(tokenBucket_clock_always_updated _ 5 7).1,
    (tokenBucket_clock_always_updated _ 5 7).2
      (by norm_num [TokenBucketRateLimiter.isAllowed,
        TokenBucketRateLimiter.refilled, min_def])⟩

/-- C2: `0 ≤ tokens ≤ capacity` holds after construction (for nonnegative
capacity) and is preserved by every `isAllowed` call with a positive request,
nonnegative refill rate and a non-decreasing clock: every refill clamps to
`capacity`, so tokens never exceed it however much time has elapsed. -/
theorem tokenBucket_tokens_in_range (capacity rate : ℚ) (now0 : ℤ)
    (s : TokenBucketRateLimiter) (req : ℚ) (now : ℤ)
    (hcap : 0 ≤ capacity) (hrate : 0 ≤ s.rate) (hclock : s.lastCheckedAt ≤ now)
    (hreq : 0 < req) (h0 : 0 ≤ s.tokens) (h1 : s.tokens ≤ s.capacity) :
    (0 ≤ (TokenBucketRateLimiter.construct capacity rate now0).tokens ∧
        (TokenBucketRateLimiter.construct capacity rate now0).tokens ≤
          (TokenBucketRateLimiter.construct capacity rate now0).capacity) ∧
      (0 ≤ (s.isAllowed req now).2.tokens ∧
        (s.isAllowed req now).2.tokens ≤ (s.isAllowed req now).2.capacity) := by
  have hcap' : 0 ≤ s.capacity := h0.trans h1
  have htp : (0 : ℚ) ≤ ((now : ℚ) - (s.lastCheckedAt : ℚ)) / 1000 := by
    have hc : ((s.lastCheckedAt : ℚ)) ≤ (now : ℚ) := by exact_mod_cast hclock
    have hnum : (0 : ℚ) ≤ (now : ℚ) - (s.lastCheckedAt : ℚ) := by linarith
    exact div_nonneg hnum (by norm_num)
  have hr0 : 0 ≤ s.refilled now :=
    le_min hcap' (add_nonneg h0 (mul_nonneg htp hrate))
  have hr1 : s.refilled now ≤ s.capacity := min_le_left _ _
  refine ⟨⟨hcap, le_refl _⟩, ?_⟩
  unfold TokenBucketRateLimiter.isAllowed
  by_cases hge : s.refilled now ≥ req
  · simp only [hge, if_pos]
    exact ⟨sub_nonneg.2 hge, (sub_le_self _ hreq.le).trans hr1⟩
  · simp only [hge, if_neg, not_false_iff]
    exact ⟨hr0, hr1⟩

/-- Witness for C2: for the example bucket (capacity 10, rate 1, full) a
request of 1 token at clock 0 keeps tokens within `[0, capacity]`. -/
theorem tokenBucket_tokens_in_range_witness :
    (0 ≤ (TokenBucketRateLimiter.construct 10 1 0).tokens ∧
        (TokenBucketRateLimiter.construct 10 1 0).tokens ≤
          (TokenBucketRateLimiter.construct 10 1 0).capacity) ∧
      (0 ≤ (bucketRateLimiter.isAllowed 1 0).2.tokens ∧
        (bucketRateLimiter.isAllowed 1 0).2.tokens ≤
          (bucketRateLimiter.isAllowed 1 0).2.capacity) :=
  tokenBucket_tokens_in_range 10 1 0 bucketRateLimiter 1 0 (by norm_num)
    (by norm_num [bucketRateLimiter, TokenBucketRateLimiter.construct])
    (by norm_num [bucketRateLimiter, TokenBucketRateLimiter.construct])
    (by norm_num)
    (by norm_num [bucketRateLimiter, TokenBucketRateLimiter.construct])
    (by norm_num [bucketRateLimiter, TokenBucketRateLimiter.construct])

/-- C10: `isAllowed` does not validate its argument: with a nonnegative
state a request of at most 0 tokens is always granted, and a strictly
negative request made on a full bucket with no elapsed time leaves strictly
more than `capacity` tokens behind. -/
theorem tokenBucket_no_argument_validation (s : TokenBucketRateLimiter)
    (req : ℚ) (now : ℤ)
    (hreq : req ≤ 0) (h0 : 0 ≤ s.tokens) (hcap : 0 ≤ s.capacity)
    (hrate : 0 ≤ s.rate) (hclock : s.lastCheckedAt ≤ now) :
    (s.isAllowed req now).1 = true ∧
      (req < 0 ∧ s.tokens = s.capacity ∧ now = s.lastCheckedAt →
        s.capacity < (s.isAllowed req now).2.tokens) := by
  have htp : (0 : ℚ) ≤ ((now : ℚ) - (s.lastCheckedAt : ℚ)) / 1000 := by
    have hc : ((s.lastCheckedAt : ℚ)) ≤ (now : ℚ) := by exact_mod_cast hclock
    have hnum : (0 : ℚ) ≤ (now : ℚ) - (s.lastCheckedAt : ℚ) := by linarith
    exact div_nonneg hnum (by norm_num)
  have hr0 : 0 ≤ s.refilled now :=
    le_min hcap (add_nonneg h0 (mul_nonneg htp hrate))
  have hge : s.refilled now ≥ req := le_trans hreq hr0
  constructor
  · unfold TokenBucketRateLimiter.isAllowed
    simp [hge]
  · rintro ⟨hneg, hfull, hsame⟩
    have hrefill : s.refilled now = s.capacity := by
      unfold TokenBucketRateLimiter.refilled
      rw [hsame, hfull]
      simp
    unfold TokenBucketRateLimiter.isAllowed
    simp only [ge_iff_le, hge, if_pos]
    rw [hrefill]
    linarith

/-- Witness for C10: a full bucket of capacity 10 asked for `-5` tokens at
the same instant answers `true` and is left holding 15 > 10 tokens. -/
theorem tokenBucket_no_argument_validation_witness :
    (({ capacity := 10, rate := 1, lastCheckedAt := 0, tokens := 10 } :
        TokenBucketRateLimiter).isAllowed (-5) 0).1 = true ∧
      (10 : ℚ) <
        (({ capacity := 10, rate := 1, lastCheckedAt := 0, tokens := 10 } :
            TokenBucketRateLimiter).isAllowed (-5) 0).2.tokens :=
  ⟨(tokenBucket_no_argument_validation
      { capacity := 10, rate := 1, lastCheckedAt := 0, tokens := 10 } (-5) 0
      (by norm_num) (by norm_num) (by norm_num) (by norm_num) (by norm_num)).1,
    (tokenBucket_no_argument_validation
      { capacity := 10, rate := 1, lastCheckedAt := 0, tokens := 10 } (-5) 0
      (by norm_num) (by norm_num) (by norm_num) (by norm_num) (by norm_num)).2
      ⟨by norm_num, rfl, rfl⟩⟩

/-- C8: for `new TokenBucketRateLimiter(10, 1)`, eleven `isAllowed(1)` calls
at clock 0 answer `true` ten times then `false`, and a further `isAllowed(1)`
call 1000 ms later answers `true` (one token was refilled). -/
theorem tokenBucket_burst_then_refill :
    (runTokenBucket bucketRateLimiter
        (List.replicate 11 (1, 0) ++ [(1, 1000)])).1 =
      List.replicate 10 true ++ [false, true] := by
  norm_num [runTokenBucket, TokenBucketRateLimiter.isAllowed,
    TokenBucketRateLimiter.refilled, bucketRateLimiter,
    TokenBucketRateLimiter.construct, min_def, List.replicate]

/-- Filtering a history of identical fresh timestamps keeps all of them when
the window is positive: `now - now = 0 < timeWindowMs`. -/
theorem filter_replicate_inWindow (s : FixedWindowRateLimiter) (now : ℤ)
    (k : ℕ) (hwin : 0 < s.timeWindowMs) :
    (List.replicate k now).filter (s.inWindow now) = List.replicate k now := by
  apply List.filter_eq_self.2
  intro a ha
  rw [List.eq_of_mem_replicate ha]
  simp [FixedWindowRateLimiter.inWindow, hwin]

/-- One `isAllowed` call at instant `now` on a history of `k < maxRequests`
copies of `now` is allowed and extends that history to `k + 1` copies. -/
theorem fixedWindow_step_fresh (s : FixedWindowRateLimiter) (identifier : String)
    (now : ℤ) (k : ℕ) (hwin : 0 < s.timeWindowMs)
    (hts : s.requestTimestamps identifier = List.replicate k now)
    (hk : k < s.maxRequests) :
    (s.isAllowed identifier now).1 = true ∧
      (s.isAllowed identifier now).2.maxRequests = s.maxRequests ∧
      (s.isAllowed identifier now).2.timeWindowMs = s.timeWindowMs ∧
      (s.isAllowed identifier now).2.requestTimestamps identifier =
        List.replicate (k + 1) now := by
  have hfilter : (s.requestTimestamps identifier).filter (s.inWindow now) =
      List.replicate k now := by
    rw [hts]
    exact filter_replicate_inWindow s now k hwin
  have hnot : ¬ ((List.replicate k now).length ≥ s.maxRequests) := by
    simp only [List.length_replicate]
    omega
  have hnot' : ¬ (s.maxRequests ≤ k) := by omega
  simp only [FixedWindowRateLimiter.isAllowed, hfilter]
  simp [hnot', List.replicate_succ']

/-- Running `m` same-instant calls for one identifier from a history of `k`
copies of `now`, with `k + m` within the limit, answers `true` every time,
leaves the configuration fields untouched and grows the history to `k + m`
copies. -/
theorem runFixedWindow_replicate (identifier : String) (now : ℤ) (m : ℕ) :
    ∀ (s : FixedWindowRateLimiter) (k : ℕ),
      0 < s.timeWindowMs →
      s.requestTimestamps identifier = List.replicate k now →
      k + m ≤ s.maxRequests →
      (runFixedWindow s (List.replicate m (identifier, now))).1 =
          List.replicate m true ∧
        (runFixedWindow s (List.replicate m (identifier, now))).2.maxRequests =
          s.maxRequests ∧
        (runFixedWindow s (List.replicate m (identifier, now))).2.timeWindowMs =
          s.timeWindowMs ∧
        (runFixedWindow s
              (List.replicate m (identifier, now))).2.requestTimestamps
            identifier =
          List.replicate (k + m) now := by
  induction m with
  | zero =>
    intro s k hwin hts hle
    simpa [runFixedWindow] using hts
  | succ m ih =>
    intro s k hwin hts hle
    have hk : k < s.maxRequests := by omega
    obtain ⟨hb, hmax, hwin2, hts2⟩ :=
      fixedWindow_step_fresh s identifier now k hwin hts hk
    obtain ⟨ih1, ih2, ih3, ih4⟩ :=
      ih (s.isAllowed identifier now).2 (k + 1) (by rw [hwin2]; exact hwin)
        hts2 (by rw [hmax]; omega)
    have hcount : k + 1 + m = k + (m + 1) := by omega
    rw [hcount] at ih4
    simp only [List.replicate_succ, runFixedWindow]
    exact ⟨by rw [hb, ih1], by rw [ih2, hmax], by rw [ih3, hwin2], by rw [ih4]⟩

/-- C1: with a positive limit and window, an identifier with no history that
issues `maxRequests` calls at one instant is allowed every time, and its
`(maxRequests + 1)`th call at the same instant is denied. -/
theorem fixedWindow_capacity_bound (s : FixedWindowRateLimiter)
    (identifier : String) (now : ℤ)
    (hmax : 0 < s.maxRequests) (hwin : 0 < s.timeWindowMs)
    (hfresh : s.requestTimestamps identifier = []) :
    (runFixedWindow s (List.replicate s.maxRequests (identifier, now))).1 =
        List.replicate s.maxRequests true ∧
      ((runFixedWindow s
            (List.replicate s.maxRequests (identifier, now))).2.isAllowed
          identifier now).1 = false := by
  obtain ⟨h1, h2, h3, h4⟩ :=
    runFixedWindow_replicate identifier now s.maxRequests s 0 hwin
      (by simpa using hfresh) (by omega)
  refine ⟨h1, ?_⟩
  have hwin' :
      0 < (runFixedWindow s
          (List.replicate s.maxRequests (identifier, now))).2.timeWindowMs := by
    rw [h3]; exact hwin
  rw [Nat.zero_add] at h4
  have hfilter := filter_replicate_inWindow
    (runFixedWindow s (List.replicate s.maxRequests (identifier, now))).2 now
    s.maxRequests hwin'
  simp only [FixedWindowRateLimiter.isAllowed, h4, hfilter,
    List.length_replicate, h2, ge_iff_le, le_refl, if_pos]

/-- Witness for C1: the example limiter (limit 5, window 60000 ms) grants a
fresh identifier 5 calls at clock 0 and denies the 6th. -/
theorem fixedWindow_capacity_bound_witness :
    (runFixedWindow limiter
          (List.replicate limiter.maxRequests ("user123", 0))).1 =
        List.replicate limiter.maxRequests true ∧
      ((runFixedWindow limiter
            (List.replicate limiter.maxRequests ("user123", 0))).2.isAllowed
          "user123" 0).1 = false :=
  fixedWindow_capacity_bound limiter "user123" 0 (by decide) (by decide) rfl

/-- C3: the pruning filter keeps a stored timestamp exactly when
`now - ts < timeWindowMs`, so a timestamp exactly `timeWindowMs` old is
dropped; consequently the example limiter (limit 5, window 60000 ms) that
granted 5 calls at clock 0 grants a further call at clock 60001. -/
theorem fixedWindow_strict_window :
    (∀ (s : FixedWindowRateLimiter) (now ts : ℤ),
        s.inWindow now ts = true ↔ now - ts < s.timeWindowMs) ∧
      (∀ (s : FixedWindowRateLimiter) (ts : ℤ),
        s.inWindow (ts + s.timeWindowMs) ts = false) ∧
      (runFixedWindow limiter
          (List.replicate 5 ("user123", 0) ++ [("user123", 60001)])).1 =
        List.replicate 6 true := by
  refine ⟨?_, ?_, ?_⟩
  · intro s now ts
    simp [FixedWindowRateLimiter.inWindow]
  · intro s ts
    simp [FixedWindowRateLimiter.inWindow]
  · decide
